import Mathlib

/-!
Verification of the thread-pool core (src/threadpool.cpp) and the JSON node
operations (src/json.cpp) of the repository, by shallow embedding.

Conventions of the embedding:
* `safe_queue` (threadpool.cpp lines 16-40) guards a `std::queue` with a
  reader/writer lock; under the lock each operation is atomic, so its
  linearized behaviour is a pure function on the sequence of queued
  elements.  We model the queue content as a `List`, front at the head
  (`std::queue` pushes at the back, pops at the front).
* The worker loop, the destructor and `submit` are straight-line /
  loop-structured code whose externally visible behaviour we model as
  traces of events, one event per source statement that matters to the
  claims.
* `std::packaged_task` / `std::future` (the result-handle machinery used by
  `submit`, threadpool.cpp lines 77-94) are modelled as one-shot cells: a
  cell is unset until the task is executed, and execution stores either
  the value or the exception raised by the callable; `future::get` yields
  the stored outcome (re-raising a stored exception).
-/

set_option autoImplicit false

namespace ThreadPoolSpec

/-! ## safe_queue (threadpool.cpp lines 16-40) -/

namespace safe_queue

variable {T : Type}

/-- `push` (threadpool.cpp lines 28-31): `q.push(t)` appends `t` at the back
under an exclusive lock.  It is total: the queue is unbounded. -/
def push (q : List T) (t : T) : List T := q ++ [t]

/-- `pop` (threadpool.cpp lines 32-39): under an exclusive lock, if the queue
is empty return `false` (modelled `none`) leaving the queue unchanged;
otherwise move the front element out, pop it, and return `true` (modelled
`some front`).  The function never blocks: it is total and returns at once
in both cases. -/
def pop : List T → Option T × List T
  | [] => (none, [])
  | t :: rest => (some t, rest)

/-- Fuelled repeated pop: pop until the queue reports empty.  The fuel is the
initial length, which suffices because each successful pop removes one
element. -/
def popAllFuel : Nat → List T → List T
  | 0, _ => []
  | fuel + 1, q =>
    match pop q with
    | (none, _) => []
    | (some t, q') => t :: popAllFuel fuel q'

/-- Pop every element of the queue, in pop order. -/
def popAll (q : List T) : List T := popAllFuel q.length q

theorem popAllFuel_self (q : List T) : popAllFuel q.length q = q := by
  induction q with
  | nil => rfl
  | cons t rest ih => simp [popAllFuel, pop, ih]

theorem foldl_push (acc : List T) (xs : List T) :
    List.foldl push acc xs = acc ++ xs := by
  induction xs generalizing acc with
  | nil => simp
  | cons x rest ih => simp [push, ih]

end safe_queue

/-- C2: the task queue is strict FIFO.  Starting from the empty queue, after
any sequence of pushes the successful pops return the pushed jobs in exactly
the push order: `popAll` (repeated `pop` until the empty sentinel) returns
the pushed sequence itself, so each successful pop removes and returns the
oldest remaining element and jobs are dequeued in submission order. -/
theorem safe_queue_fifo (xs : List Nat) :
    safe_queue.popAll (List.foldl safe_queue.push [] xs) = xs := by
  rw [safe_queue.foldl_push]
  simp only [List.nil_append]
  exact safe_queue.popAllFuel_self xs

/-! ## Worker loop (threadpool.cpp lines 48-62)

```
while (!pool->is_shut_down) {
    { unique_lock<mutex> lock(pool->_m);
      pool->cv.wait(lock, [this]() {
          return (this->pool->is_shut_down) || !this->pool->q.empty(); }); }
    function<void()> func;
    bool flag = pool->q.pop(func);
    if (flag) func();
}
```

Each loop iteration: read the shutdown flag; if set, fall out of the loop
(terminal Stopped state); otherwise wait on the condition variable, then
attempt a queue pop; if the pop yields a job, execute it; re-check.  The
shutdown flag and the pop outcome are supplied by the concurrent environment
(other workers may race for the same job, the destructor may set the flag at
any time), so we model one worker's execution against an environment script:
one `(shutdown observed at the check, pop outcome)` pair per iteration.
Jobs are identified by `Nat`. -/

/-- Observable events of one worker thread. -/
inductive WEvent where
  /-- the `while (!pool->is_shut_down)` check, recording the value read -/
  | checkFlag (b : Bool)
  /-- `cv.wait` returned (its predicate held) -/
  | waitReturn
  /-- `q.pop` returned `false`: the queue was empty -/
  | popEmpty
  /-- `q.pop` returned `true`, yielding job `j` -/
  | popJob (j : Nat)
  /-- the worker ran job `j` (`func()`) -/
  | exec (j : Nat)
  /-- the worker left the loop: terminal Stopped state -/
  | stopped
deriving DecidableEq

/-- Trace of one worker run against an environment script.  An exhausted
script means the worker is still looping, not stopped. -/
def workerRun : List (Bool × Option Nat) → List WEvent
  | [] => []
  | (sd, pr) :: rest =>
    WEvent.checkFlag sd ::
      if sd then [WEvent.stopped]
      else
        WEvent.waitReturn ::
          match pr with
          | none => WEvent.popEmpty :: workerRun rest
          | some j => WEvent.popJob j :: WEvent.exec j :: workerRun rest

/-- Checks that in a worker trace every successful pop of a job is followed
immediately by the execution of that same job. -/
def popsExeced : List WEvent → Bool
  | WEvent.popJob j :: WEvent.exec j' :: rest =>
    decide (j = j') && popsExeced (WEvent.exec j' :: rest)
  | WEvent.popJob _ :: _ => false
  | _ :: rest => popsExeced rest
  | [] => true

theorem popsExeced_skip (e : WEvent) (tr : List WEvent)
    (hne : ∀ j : Nat, e ≠ WEvent.popJob j) :
    popsExeced (e :: tr) = popsExeced tr := by
  cases e with
  | popJob j => exact absurd rfl (hne j)
  | checkFlag b => cases tr with
    | nil => rfl
    | cons x rest => rfl
  | waitReturn => cases tr with
    | nil => rfl
    | cons x rest => rfl
  | popEmpty => cases tr with
    | nil => rfl
    | cons x rest => rfl
  | exec j => cases tr with
    | nil => rfl
    | cons x rest => rfl
  | stopped => cases tr with
    | nil => rfl
    | cons x rest => rfl

theorem popsExeced_workerRun (script : List (Bool × Option Nat)) :
    popsExeced (workerRun script) = true := by
  induction script with
  | nil => rfl
  | cons step rest ih =>
    obtain ⟨sd, pr⟩ := step
    cases sd with
    | true => rfl
    | false =>
      cases pr with
      | none =>
        show popsExeced
          (WEvent.checkFlag false :: WEvent.waitReturn ::
            WEvent.popEmpty :: workerRun rest) = true
        rw [popsExeced_skip _ _ (by intro j h; cases h),
          popsExeced_skip _ _ (by intro j h; cases h),
          popsExeced_skip _ _ (by intro j h; cases h)]
        exact ih
      | some j =>
        show popsExeced
          (WEvent.checkFlag false :: WEvent.waitReturn ::
            WEvent.popJob j :: WEvent.exec j :: workerRun rest) = true
        rw [popsExeced_skip _ _ (by intro j h; cases h),
          popsExeced_skip _ _ (by intro j h; cases h)]
        show (decide (j = j) && popsExeced (WEvent.exec j :: workerRun rest))
          = true
        rw [popsExeced_skip _ _ (by intro j h; cases h)]
        simp [ih]

theorem workerRun_stop_flag (script : List (Bool × Option Nat))
    (h : WEvent.stopped ∈ workerRun script) :
    WEvent.checkFlag true ∈ workerRun script := by
  induction script with
  | nil => cases h
  | cons step rest ih =>
    obtain ⟨sd, pr⟩ := step
    cases sd with
    | true => exact List.mem_cons_self _ _
    | false =>
      cases pr with
      | none =>
        simp only [workerRun, Bool.false_eq_true, if_false, List.mem_cons]
         at h ⊢
        rcases h with h | h | h | h
        · cases h
        · cases h
        · cases h
        · exact Or.inr (Or.inr (Or.inr (ih h)))
      | some j =>
        simp only [workerRun, Bool.false_eq_true, if_false, List.mem_cons]
         at h ⊢
        rcases h with h | h | h | h | h
        · cases h
        · cases h
        · cases h
        · cases h
        · exact Or.inr (Or.inr (Or.inr (Or.inr (ih h))))

/-- C3 as stated is false on the code: the worker exits at the top-of-loop
`while (!pool->is_shut_down)` check, which does not require any pop to have
yielded empty.  Concretely, against the environment script "first iteration:
flag clear, pop yields job 7; second iteration: flag set", the worker
executes job 7 and then reaches Stopped, yet no pop ever yielded empty. -/
theorem worker_stop_without_empty_pop :
    WEvent.stopped ∈ workerRun [(false, some 7), (true, none)] ∧
    WEvent.popEmpty ∉ workerRun [(false, some 7), (true, none)] ∧
    WEvent.exec 7 ∈ workerRun [(false, some 7), (true, none)] := by
  decide

/-- C3 (amended): a worker reaches its terminal Stopped state only when the
shutdown flag has been observed set at the loop's exit check — an empty pop
is not required (the worker may stop right after executing a popped job, as
the counterexample shows).  And whenever a pop yields a job — even with the
shutdown flag already set — the worker executes that job immediately, before
re-checking the exit condition, so shutdown never discards a job a worker
has already popped. -/
theorem worker_exit_condition (script : List (Bool × Option Nat)) :
    (WEvent.stopped ∈ workerRun script →
      WEvent.checkFlag true ∈ workerRun script) ∧
    popsExeced (workerRun script) = true :=
  ⟨workerRun_stop_flag script, popsExeced_workerRun script⟩

/-- Witness for C3's amended theorem at the script of the counterexample:
the worker stops there, so the flag was indeed observed set, and every
popped job was executed in place. -/
theorem worker_exit_condition_witness :
    WEvent.checkFlag true ∈ workerRun [(false, some 7), (true, none)] ∧
    popsExeced (workerRun [(false, some 7), (true, none)]) = true :=
  ⟨(worker_exit_condition [(false, some 7), (true, none)]).1 (by decide),
    (worker_exit_condition [(false, some 7), (true, none)]).2⟩

/-! ## submit and the destructor as event traces

`submit` (threadpool.cpp lines 77-94) wraps the callable into a job, pushes
it (`q.push(wrapper_func)`), signals one waiting worker (`cv.notify_one()`),
and returns the future.  The destructor (lines 95-104) submits a no-op
sentinel through `submit`, synchronously waits on its future (`f.get()`),
sets `is_shut_down = true`, calls `cv.notify_all()`, and joins every worker
thread in order; the pool's members — the queue among them — are destroyed
only after the destructor body, hence after all joins. -/

/-- Externally visible events of `submit` and of the destructor. -/
inductive Event where
  /-- `q.push(wrapper_func)`: job `j` enqueued -/
  | push (j : Nat)
  /-- `cv.notify_one()` -/
  | notifyOne
  /-- `cv.notify_all()` -/
  | notifyAll
  /-- `f.get()`: the synchronous wait on the sentinel's future -/
  | futureGet
  /-- `is_shut_down = true` -/
  | setShutdown
  /-- `threads[i].join()` -/
  | join (i : Nat)
  /-- destruction of the pool's members (task queue, threads, mutex, cv) -/
  | destroy
deriving DecidableEq

/-- Identifier of the destructor's no-op sentinel job (`submit([]() {})`). -/
def sentinelJob : Nat := 0

/-- Events of `submit` for job `j` (threadpool.cpp lines 88-89): push the
wrapped job, then wake exactly one worker. -/
def submitEvents (j : Nat) : List Event :=
  [Event.push j, Event.notifyOne]

/-- Events `[join s, join (s+1), ..., join (s+k-1)]`: the destructor's
`for (auto& t : threads) t.join()` loop joins the workers in order (each
worker thread is joinable, so the `joinable()` guard passes). -/
def joinEventsFrom (s : Nat) : Nat → List Event
  | 0 => []
  | k + 1 => Event.join s :: joinEventsFrom (s + 1) k

/-- Event trace of `~ThreadPool()` (threadpool.cpp lines 95-104) for a pool
of `n` workers, ending with the implicit destruction of the members. -/
def destructorTrace (n : Nat) : List Event :=
  submitEvents sentinelJob ++
    Event.futureGet :: Event.setShutdown :: Event.notifyAll ::
      (joinEventsFrom 0 n ++ [Event.destroy])

/-- Index of the first occurrence of `e` in a trace (length if absent). -/
def idxOf (e : Event) : List Event → Nat
  | [] => 0
  | x :: xs => if x = e then 0 else idxOf e xs + 1

theorem idxOf_joinEventsFrom (k : Nat) :
    ∀ (s i : Nat) (rest : List Event), s ≤ i → i < s + k →
      idxOf (Event.join i) (joinEventsFrom s k ++ rest) = i - s := by
  induction k with
  | zero => intro s i rest hsi hik; omega
  | succ k ih =>
    intro s i rest hsi hik
    by_cases his : i = s
    · subst his
      simp [joinEventsFrom, idxOf]
    · have h1 : s + 1 ≤ i := by omega
      have h2 : i < (s + 1) + k := by omega
      have hne : Event.join s ≠ Event.join i := by
        intro h
        exact his (Event.join.inj h).symm
      calc idxOf (Event.join i) (joinEventsFrom s (k + 1) ++ rest)
          = idxOf (Event.join i) (joinEventsFrom (s + 1) k ++ rest) + 1 := by
            simp [joinEventsFrom, idxOf, hne]
        _ = (i - (s + 1)) + 1 := by rw [ih (s + 1) i rest h1 h2]
        _ = i - s := by omega

theorem idxOf_destroy_joinEventsFrom (k : Nat) :
    ∀ s : Nat,
      idxOf Event.destroy (joinEventsFrom s k ++ [Event.destroy]) = k := by
  induction k with
  | zero => intro s; rfl
  | succ k ih =>
    intro s
    simp [joinEventsFrom, idxOf, ih (s + 1)]

theorem idxOf_futureGet (n : Nat) :
    idxOf Event.futureGet (destructorTrace n) = 2 := by
  simp [destructorTrace, submitEvents, sentinelJob, idxOf]

theorem idxOf_setShutdown (n : Nat) :
    idxOf Event.setShutdown (destructorTrace n) = 3 := by
  simp [destructorTrace, submitEvents, sentinelJob, idxOf]

theorem idxOf_notifyAll (n : Nat) :
    idxOf Event.notifyAll (destructorTrace n) = 4 := by
  simp [destructorTrace, submitEvents, sentinelJob, idxOf]

theorem idxOf_join (n i : Nat) (hi : i < n) :
    idxOf (Event.join i) (destructorTrace n) = 5 + i := by
  have h := idxOf_joinEventsFrom n 0 i [Event.destroy] (Nat.zero_le i)
    (by omega)
  simp only [destructorTrace, submitEvents, sentinelJob, idxOf,
    List.cons_append, List.nil_append, reduceCtorEq, if_false]
  omega

theorem idxOf_destroy (n : Nat) :
    idxOf Event.destroy (destructorTrace n) = 5 + n := by
  have h := idxOf_destroy_joinEventsFrom n 0
  simp only [destructorTrace, submitEvents, sentinelJob, idxOf,
    List.cons_append, List.nil_append, reduceCtorEq, if_false]
  omega

/-- C1: pool teardown order.  The destructor's trace begins with the no-op
sentinel going through the normal `submit` path followed directly by the
synchronous wait on its future (the drain barrier); the wait precedes the
setting of the shutdown flag, which precedes the wake-all, which precedes
the join of every worker, and the pool's members (task queue included) are
destroyed only after every join. -/
theorem destructor_order (n : Nat) :
    (∃ rest, destructorTrace n =
      submitEvents sentinelJob ++ Event.futureGet :: rest) ∧
    idxOf Event.futureGet (destructorTrace n) <
      idxOf Event.setShutdown (destructorTrace n) ∧
    idxOf Event.setShutdown (destructorTrace n) <
      idxOf Event.notifyAll (destructorTrace n) ∧
    ∀ i, i < n →
      idxOf Event.notifyAll (destructorTrace n) <
        idxOf (Event.join i) (destructorTrace n) ∧
      idxOf (Event.join i) (destructorTrace n) <
        idxOf Event.destroy (destructorTrace n) := by
  refine ⟨⟨_, rfl⟩, ?_, ?_, ?_⟩
  · rw [idxOf_futureGet, idxOf_setShutdown]; omega
  · rw [idxOf_setShutdown, idxOf_notifyAll]; omega
  · intro i hi
    rw [idxOf_notifyAll, idxOf_join n i hi, idxOf_destroy]
    omega

/-- Witness for C1 at a pool of 2 workers, instantiating the join ordering
at worker 1. -/
theorem destructor_order_witness :
    idxOf Event.futureGet (destructorTrace 2) <
      idxOf Event.setShutdown (destructorTrace 2) ∧
    idxOf Event.notifyAll (destructorTrace 2) <
      idxOf (Event.join 1) (destructorTrace 2) ∧
    idxOf (Event.join 1) (destructorTrace 2) <
      idxOf Event.destroy (destructorTrace 2) :=
  ⟨(destructor_order 2).2.1,
    ((destructor_order 2).2.2.2 1 (by decide)).1,
    ((destructor_order 2).2.2.2 1 (by decide)).2⟩

/-- Is this event a condition-variable notification? -/
def isNotify : Event → Bool
  | Event.notifyOne => true
  | Event.notifyAll => true
  | _ => false

theorem filter_isNotify_joinEventsFrom (k : Nat) :
    ∀ s : Nat, (joinEventsFrom s k).filter isNotify = [] := by
  induction k with
  | zero => intro s; rfl
  | succ k ih =>
    intro s
    simp [joinEventsFrom, List.filter, isNotify, ih (s + 1)]

/-- C7: wake-one on submission, wake-all on shutdown.  Every `submit` emits
exactly one notification and it is `notify_one` (after the push); the
destructor's only notifications are the sentinel submission's `notify_one`
and one `notify_all`, and the notification issued after the shutdown flag is
set is exactly the `notify_all`.  This holds for every job and every pool
size. -/
theorem notify_asymmetry (j n : Nat) :
    (submitEvents j).filter isNotify = [Event.notifyOne] ∧
    idxOf (Event.push j) (submitEvents j) <
      idxOf Event.notifyOne (submitEvents j) ∧
    (destructorTrace n).filter isNotify =
      [Event.notifyOne, Event.notifyAll] ∧
    ((destructorTrace n).dropWhile
        (fun e => !(decide (e = Event.setShutdown)))).filter isNotify =
      [Event.notifyAll] := by
  refine ⟨?_, ?_, ?_, ?_⟩
  · simp [submitEvents, List.filter, isNotify]
  · simp [submitEvents, idxOf]
  · simp [destructorTrace, submitEvents, sentinelJob, List.filter_append,
      List.filter, isNotify, filter_isNotify_joinEventsFrom n 0]
  · simp [destructorTrace, submitEvents, sentinelJob, List.dropWhile,
      List.filter_append, List.filter, isNotify,
      filter_isNotify_joinEventsFrom n 0]

/-! ## Result handles (threadpool.cpp lines 77-94, 57-61)

`submit` wraps the callable into a `std::packaged_task` held by a shared
pointer, pushes a void wrapper that invokes the task, and returns
`task_ptr->get_future()`.  A `packaged_task`'s shared state is unset until
the task is invoked; invoking it runs the callable and stores either its
return value or the exception it raised; `future::get` blocks until the
state is set, then returns the value or re-raises the stored exception.

We model the callable's behaviour as `Unit → Except String Int` (`.error e`
models raising exception `e`), a shared state as
`Option (Except String Int)` (`none` = not yet ready, so `get` would
block), and the pool's task bookkeeping as a list of (callable, shared
state) pairs indexed by task id, together with the queue of pending task
ids. -/

/-- Pool-side state relevant to submission and result propagation. -/
structure PState where
  /-- pending task ids, in queue order -/
  queue : List Nat
  /-- per task: the wrapped callable and its packaged_task shared state -/
  tasks : List ((Unit → Except String Int) × Option (Except String Int))

/-- `submit` (threadpool.cpp lines 77-94): wrap the callable into a
packaged_task with an unset shared state, push the wrapper onto the task
queue, and hand the future (the task id) back at once — the callable is not
invoked here. -/
def submit (σ : PState) (f : Unit → Except String Int) : PState × Nat :=
  let id := σ.tasks.length
  (⟨σ.queue ++ [id], σ.tasks ++ [(f, none)]⟩, id)

/-- A worker executing the dequeued wrapper (`func()` at threadpool.cpp line
60): `(*task_ptr)()` runs the callable and stores its outcome — value or
raised exception — into the shared state.  The wrapper itself never raises:
the packaged_task captures the exception. -/
def execJob (σ : PState) (id : Nat) : PState :=
  match σ.tasks.get? id with
  | some (f, _) => ⟨σ.queue, σ.tasks.set id (f, some (f ()))⟩
  | none => σ

/-- `future::get` on task `id`: `none` while the shared state is unset (the
caller would block); once set, the stored outcome — `get` re-raises a stored
exception. -/
def futureGetCell (σ : PState) (id : Nat) :
    Option (Except String Int) :=
  (σ.tasks.get? id).bind (fun t => t.2)

theorem submit_tasks_get (σ : PState) (f : Unit → Except String Int) :
    ((submit σ f).1).tasks.get? (submit σ f).2 = some (f, none) := by
  simp [submit]

/-- C5: a failure raised by a submitted callable is captured when the job
executes, stored in its result handle, and re-raised only at `get`.  Right
after `submit` the handle is still unset, even for a callable that raises —
`submit` itself runs nothing and surfaces no failure; once a worker executes
the job of a callable raising `e`, `get` on the handle yields exactly
`e`; and executing a job never terminates the worker loop: the worker's
trace continues past the execution exactly as scripted, so the pool keeps
serving subsequent jobs. -/
theorem failure_through_handle (σ : PState)
    (f : Unit → Except String Int) (e : String) :
    futureGetCell (submit σ f).1 (submit σ f).2 = none ∧
    (f () = Except.error e →
      futureGetCell (execJob (submit σ f).1 (submit σ f).2)
        (submit σ f).2 = some (Except.error e)) ∧
    ∀ (script : List (Bool × Option Nat)) (j : Nat),
      workerRun ((false, some j) :: script) =
        WEvent.checkFlag false :: WEvent.waitReturn ::
          WEvent.popJob j :: WEvent.exec j :: workerRun script := by
  refine ⟨?_, ?_, ?_⟩
  · simp [futureGetCell, submit]
  · intro hf
    simp [futureGetCell, execJob, submit_tasks_get σ f, submit, hf]
  · intro script j
    rfl

/-- Witness for C5: the empty pool, the callable that raises "boom". -/
theorem failure_through_handle_witness :
    futureGetCell
      (submit ⟨[], []⟩ (fun _ => Except.error "boom")).1
      (submit ⟨[], []⟩ (fun _ => Except.error "boom")).2 = none ∧
    futureGetCell
      (execJob (submit ⟨[], []⟩ (fun _ => Except.error "boom")).1
        (submit ⟨[], []⟩ (fun _ => Except.error "boom")).2)
      (submit ⟨[], []⟩ (fun _ => Except.error "boom")).2 =
      some (Except.error "boom") ∧
    workerRun [(false, some 1)] =
      [WEvent.checkFlag false, WEvent.waitReturn,
        WEvent.popJob 1, WEvent.exec 1] :=
  ⟨(failure_through_handle ⟨[], []⟩ (fun _ => Except.error "boom") "boom").1,
    (failure_through_handle ⟨[], []⟩
      (fun _ => Except.error "boom") "boom").2.1 rfl,
    (failure_through_handle ⟨[], []⟩
      (fun _ => Except.error "boom") "boom").2.2 [] 1⟩

/-- C8: `submit` always succeeds.  For every pool state and every callable,
`submit` pushes the job onto the unbounded queue (the push cannot fail),
returns the consumer end of the result handle — the future of the fresh
task — immediately, and at the moment of return the job has not been
executed and no error has been surfaced: the handle is still unset.  As a
total function, `submit` neither blocks on the job's execution nor raises. -/
theorem submit_always_succeeds (σ : PState)
    (f : Unit → Except String Int) :
    (submit σ f).1.queue = safe_queue.push σ.queue (submit σ f).2 ∧
    (submit σ f).2 = σ.tasks.length ∧
    futureGetCell (submit σ f).1 (submit σ f).2 = none := by
  refine ⟨rfl, rfl, ?_⟩
  simp [futureGetCell, submit]

/-! ## The shutdown flag's access sites (C4)

`is_shut_down` is declared `bool is_shut_down;` (threadpool.cpp line 65) —
a plain `bool`, not `std::atomic<bool>`.  Its access sites are:
* line 49, read, `while (!pool->is_shut_down)` — no lock held;
* line 53, read, inside the `cv.wait` predicate — `pool->_m` held;
* line 98, write, `is_shut_down = true` in the destructor — no lock held.
We record each site with whether the condition-variable lock `_m` is held
there, as read off the source. -/

/-- One source-level access to `is_shut_down`. -/
structure FlagAccess where
  /-- `true` for a write, `false` for a read -/
  write : Bool
  /-- whether `pool->_m` (the cv lock) is held at the access -/
  underCvLock : Bool
  /-- source line in threadpool.cpp -/
  line : Nat
deriving DecidableEq

/-- All accesses to `is_shut_down` in threadpool.cpp. -/
def is_shut_down_accesses : List FlagAccess :=
  [⟨false, false, 49⟩, ⟨false, true, 53⟩, ⟨true, false, 98⟩]

/-- `is_shut_down` is declared as a plain `bool` (threadpool.cpp line 65),
not as a synchronization primitive such as `std::atomic<bool>`. -/
def is_shut_down_plain_bool : Bool := true

/-- C4 is false on the code (the claim itself states the intended
discipline, which the code fails to implement): not every access to
`is_shut_down` holds the cv lock — the loop-condition read at line 49 and
the destructor's write at line 98 are performed without holding `_m` — and
the flag is a plain unsynchronized `bool`, so the unlocked write at line 98
races the unlocked read at line 49. -/
theorem shutdown_flag_unsynchronized :
    (is_shut_down_accesses.all fun a => a.underCvLock) = false ∧
    is_shut_down_plain_bool = true ∧
    ((is_shut_down_accesses.filter fun a => !a.underCvLock).map
      FlagAccess.line) = [49, 98] ∧
    (is_shut_down_accesses.filter fun a => !a.underCvLock).any
      (fun a => a.write) = true := by
  decide

/-- C6: `pop` on a non-empty queue removes the head element and returns it
(success); `pop` on an empty queue returns the empty sentinel (`none`,
i.e. `false` in the source) and leaves the queue empty.  In both cases `pop`
is a total function that returns immediately: no blocking happens inside the
queue. -/
theorem safe_queue_pop_spec (q : List Nat) :
    (safe_queue.pop q).1 = q.head? ∧ (safe_queue.pop q).2 = q.tail := by
  cases q with
  | nil => exact ⟨rfl, rfl⟩
  | cons t rest => exact ⟨rfl, rfl⟩

end ThreadPoolSpec

namespace JsonSpec

/-! ## JSON nodes (src/json.cpp lines 10-44)

A `Node` wraps a `Value`, a variant over null / bool / int64 / double /
string / array of nodes / object (`std::map<std::string, Node>`, ordered by
`<` on keys).  The default constructor yields a null node.  We collapse the
`Node`/`Value` wrapper into one inductive; objects are modelled as key-sorted
association lists, matching `std::map`'s ordered representation. -/

/-- A JSON node (json.cpp lines 12-24).  `Node()` is `null`. -/
inductive Node where
  | null
  | bool (b : Bool)
  | int (i : Int)
  | float (f : Float)
  | str (s : String)
  | arr (a : List Node)
  | obj (o : List (String × Node))

/-- Does the node hold an `Array`?  (`std::get_if<Array>` succeeds.) -/
def Node.isArr : Node → Bool
  | Node.arr _ => true
  | _ => false

/-- Does the node hold an `Object`?  (`std::get_if<Object>` succeeds.) -/
def Node.isObj : Node → Bool
  | Node.obj _ => true
  | _ => false

/-- Lookup in an object, first matching key (`std::map` keys are unique). -/
def lookupObj : List (String × Node) → String → Option Node
  | [], _ => none
  | (k, v) :: rest, key => if k = key then some v else lookupObj rest key

/-- `std::map<std::string, Node>::operator[](key)`: if the key is present,
a reference to its mapped node; otherwise insert `(key, Node())` — a null
node — at the key's ordered position and return a reference to it.  Modelled
as (the node referred to, the possibly-updated object). -/
def mapGetOrInsert : List (String × Node) → String →
    Node × List (String × Node)
  | [], key => (Node.null, [(key, Node.null)])
  | (k, v) :: rest, key =>
    if key < k then (Node.null, (key, Node.null) :: (k, v) :: rest)
    else if key = k then (v, (k, v) :: rest)
    else
      let r := mapGetOrInsert rest key
      (r.1, (k, v) :: r.2)

/-- `Node::operator[](const std::string&)` (json.cpp lines 25-30): if the
node holds an object, `(*object)[key]` — the map's get-or-insert — giving
(the referenced node, the node after the possible insertion); otherwise
throw `runtime_error("not an object")`. -/
def Node.indexStr : Node → String → Except String (Node × Node)
  | Node.obj o, key =>
    let r := mapGetOrInsert o key
    Except.ok (r.1, Node.obj r.2)
  | _, _ => Except.error "not an object"

/-- `Node::operator[](size_t)` (json.cpp lines 31-36): if the node holds an
array, `array->at(index)` — the element, or `std::out_of_range` for a bad
index (modelled by the error message of `vector::at`); otherwise throw
`runtime_error("not an array")`. -/
def Node.indexNat : Node → Nat → Except String Node
  | Node.arr a, i =>
    match a.get? i with
    | some v => Except.ok v
    | none => Except.error "vector::at out of range"
  | _, _ => Except.error "not an array"

/-- `Node::push` (json.cpp lines 37-43): if the node holds an array, append
`rhs`; otherwise throw `runtime_error("not an array push")`. -/
def Node.pushBack : Node → Node → Except String Node
  | Node.arr a, rhs => Except.ok (Node.arr (a ++ [rhs]))
  | _, _ => Except.error "not an array push"

/-- C9: operating on a node as the wrong shape fails fast with the
descriptive error of the shape check and never yields a default result:
integer-indexing a non-array node throws "not an array", string-indexing a
non-object node throws "not an object", and pushing onto a non-array node
throws "not an array push". -/
theorem wrong_shape_fails_fast (n : Node) (i : Nat) (key : String)
    (rhs : Node) :
    (n.isArr = false → n.indexNat i = Except.error "not an array") ∧
    (n.isObj = false → n.indexStr key = Except.error "not an object") ∧
    (n.isArr = false → n.pushBack rhs = Except.error "not an array push")
    := by
  refine ⟨?_, ?_, ?_⟩ <;> intro h <;> cases n <;>
    simp_all [Node.isArr, Node.isObj, Node.indexNat, Node.indexStr,
      Node.pushBack]

/-- Witness for C9 at an integer node: all three wrong-shape operations on
`Node.int 3` raise their descriptive errors. -/
theorem wrong_shape_fails_fast_witness :
    (Node.int 3).indexNat 0 = Except.error "not an array" ∧
    (Node.int 3).indexStr "k" = Except.error "not an object" ∧
    (Node.int 3).pushBack Node.null = Except.error "not an array push" :=
  ⟨(wrong_shape_fails_fast (Node.int 3) 0 "k" Node.null).1 rfl,
    (wrong_shape_fails_fast (Node.int 3) 0 "k" Node.null).2.1 rfl,
    (wrong_shape_fails_fast (Node.int 3) 0 "k" Node.null).2.2 rfl⟩

theorem mapGetOrInsert_absent (o : List (String × Node)) (key : String)
    (h : lookupObj o key = none) :
    (mapGetOrInsert o key).1 = Node.null ∧
    lookupObj (mapGetOrInsert o key).2 key = some Node.null ∧
    ∀ k, k ≠ key → lookupObj (mapGetOrInsert o key).2 k = lookupObj o k
    := by
  induction o with
  | nil =>
    refine ⟨rfl, by simp [mapGetOrInsert, lookupObj], ?_⟩
    intro k hk
    show lookupObj [(key, Node.null)] k = lookupObj [] k
    simp only [lookupObj]
    rw [if_neg (Ne.symm hk)]
  | cons p rest ih =>
    obtain ⟨a, v⟩ := p
    have ha : a ≠ key := by
      intro hak
      simp [lookupObj, hak] at h
    have hrest : lookupObj rest key = none := by
      simpa [lookupObj, ha] using h
    obtain ⟨ih1, ih2, ih3⟩ := ih hrest
    by_cases hlt : key < a
    · have hmap : mapGetOrInsert ((a, v) :: rest) key =
          (Node.null, (key, Node.null) :: (a, v) :: rest) := by
        simp only [mapGetOrInsert]
        rw [if_pos hlt]
      refine ⟨by rw [hmap], ?_, ?_⟩
      · rw [hmap]
        simp [lookupObj]
      · intro k hk
        rw [hmap]
        show lookupObj ((key, Node.null) :: (a, v) :: rest) k =
          lookupObj ((a, v) :: rest) k
        simp only [lookupObj]
        rw [if_neg (Ne.symm hk)]
    · have hne : key ≠ a := fun hkey => ha hkey.symm
      have hmap : mapGetOrInsert ((a, v) :: rest) key =
          ((mapGetOrInsert rest key).1,
            (a, v) :: (mapGetOrInsert rest key).2) := by
        simp only [mapGetOrInsert]
        rw [if_neg hlt, if_neg hne]
      refine ⟨?_, ?_, ?_⟩
      · rw [hmap]
        exact ih1
      · rw [hmap]
        show lookupObj ((a, v) :: (mapGetOrInsert rest key).2) key =
          some Node.null
        simp only [lookupObj]
        rw [if_neg ha]
        exact ih2
      · intro k hk
        rw [hmap]
        show lookupObj ((a, v) :: (mapGetOrInsert rest key).2) k =
          lookupObj ((a, v) :: rest) k
        simp only [lookupObj]
        by_cases hak : a = k
        · rw [if_pos hak, if_pos hak]
        · rw [if_neg hak, if_neg hak]
          exact ih3 k hk

/-- C10: string-indexing an object node by an absent key does not fail: it
inserts a default null node under that key — mutating the object — and
returns a reference to the newly inserted node.  The returned reference is
the null node, the key now maps to that null node, and every other key is
untouched: the read-looking index was also a write. -/
theorem object_index_inserts_default (o : List (String × Node))
    (key : String) (h : lookupObj o key = none) :
    (Node.obj o).indexStr key =
      Except.ok (Node.null, Node.obj (mapGetOrInsert o key).2) ∧
    lookupObj (mapGetOrInsert o key).2 key = some Node.null ∧
    ∀ k, k ≠ key → lookupObj (mapGetOrInsert o key).2 k = lookupObj o k
    := by
  obtain ⟨h1, h2, h3⟩ := mapGetOrInsert_absent o key h
  exact ⟨by simp [Node.indexStr, h1], h2, h3⟩

/-- Witness for C10: indexing the object `{"a": 1}` by the absent key "b"
inserts a null node under "b", returns it, and leaves "a" untouched. -/
theorem object_index_inserts_default_witness :
    (Node.obj [("a", Node.int 1)]).indexStr "b" =
      Except.ok (Node.null,
        Node.obj (mapGetOrInsert [("a", Node.int 1)] "b").2) ∧
    lookupObj (mapGetOrInsert [("a", Node.int 1)] "b").2 "b" =
      some Node.null ∧
    lookupObj (mapGetOrInsert [("a", Node.int 1)] "b").2 "a" =
      lookupObj [("a", Node.int 1)] "a" :=
  ⟨(object_index_inserts_default [("a", Node.int 1)] "b" rfl).1,
    (object_index_inserts_default [("a", Node.int 1)] "b" rfl).2.1,
    (object_index_inserts_default [("a", Node.int 1)] "b" rfl).2.2 "a"
      (by decide)⟩

end JsonSpec
